import Mathlib

/-!
Verification of the memory subsystem of the SysControl kernel
(bitmap frame allocator, 4-level page-table manager, linked-list heap
allocator).  The Rust sources are shallowly embedded: machine integers
become Nat with explicit reductions modulo 2^64 where wrap-around matters,
raw memory becomes address-indexed partial maps at node or table
granularity, and every panic (explicit panic, failed assert, failed
expect/unwrap, out-of-bounds slice index) becomes an Option none or a
distinguished panicked result.
-/

set_option autoImplicit false
set_option maxRecDepth 100000

/-- Embeds utils::ceil_div_usize: (a + b - 1) / b. -/
def ceil_div_usize (a b : Nat) : Nat := (a + b - 1) / b

/-- Embeds frame_allocator::FRAME_SIZE. -/
def FRAME_SIZE : Nat := 4096

/-- Embeds frame_allocator::FrameInfo. -/
structure FrameInfo where
  number : Nat
  address : Nat
deriving DecidableEq

/-- Embeds FrameInfo::from_address. -/
def FrameInfo.from_address (address : Nat) : FrameInfo :=
  { number := address / FRAME_SIZE, address := address }

/-- Embeds FrameInfo.from_number. -/
def FrameInfo.from_number (number : Nat) : FrameInfo :=
  { number := number, address := number * FRAME_SIZE }

/-- Embeds stivale MemoryMapEntryType (the seven region kinds the kernel
distinguishes). -/
inductive MemoryMapEntryType where
  | Usable
  | Reserved
  | AcpiReclaimable
  | AcpiNvs
  | BadMemory
  | BootloaderReclaimable
  | Kernel
deriving DecidableEq

/-- Embeds a stivale memory-map record: start_address and size, with
end_address = start_address + size. -/
structure MemRegion where
  start_address : Nat
  size : Nat
  entry_type : MemoryMapEntryType
deriving DecidableEq

def MemRegion.end_address (r : MemRegion) : Nat := r.start_address + r.size

/-- Embeds frame_allocator::BitMapFrameAllocator.  The Rust slice of u8
becomes a list of Nat; well-formed states keep every byte below 256. -/
structure BitMapFrameAllocator where
  bitmap_frame : Nat
  bitmap_size_in_bytes : Nat
  bitmap_size_in_frames : Nat
  frames_amount : Nat
  memory_end : Nat
  slice : List Nat
deriving DecidableEq

namespace BitMapFrameAllocator

/-- Embeds BitMapFrameAllocator::mark_frame.  none models a panic: the
explicit bounds check (frame > memory_end, comparing the frame number
against the byte address memory_end, exactly as the source does) or the
Rust index panic when byte = frame / 8 falls outside the slice. -/
def mark_frame (a : BitMapFrameAllocator) (frame : Nat) (allocated : Bool) :
    Option BitMapFrameAllocator :=
  if a.memory_end < frame then none
  else
    let byte := frame / 8
    let bit_index := frame % 8
    match a.slice.get? byte with
    | none => none
    | some old =>
      let v := if allocated then old ||| (1 <<< bit_index)
               else old &&& (255 ^^^ (1 <<< bit_index))
      some { a with slice := a.slice.set byte v }

/-- Marks the frames i, i+1, ..., i+count-1; loop body of mark_region. -/
def markFrames (a : BitMapFrameAllocator) (i count : Nat) (allocated : Bool) :
    Option BitMapFrameAllocator :=
  match count with
  | 0 => some a
  | c + 1 => (a.mark_frame i allocated).bind fun a2 => markFrames a2 (i + 1) c allocated

/-- Embeds BitMapFrameAllocator::mark_region: marks frames from
start / FRAME_SIZE (inclusive) to ceil_div_usize end FRAME_SIZE
(exclusive). -/
def mark_region (a : BitMapFrameAllocator) (start e : Nat) (allocated : Bool) :
    Option BitMapFrameAllocator :=
  markFrames a (start / FRAME_SIZE) (ceil_div_usize e FRAME_SIZE - start / FRAME_SIZE) allocated

/-- Embeds the search loop of BitMapFrameAllocator::new: walk the regions
in order and return the first frame number ceil_div(start, FRAME_SIZE) of a
Usable region satisfying (frame + bitmap_frames + 1) * FRAME_SIZE <=
start + size; none models the panic when no region fits. -/
def findBitmapSpot (cont : Nat) : List MemRegion → Option Nat
  | [] => none
  | r :: rest =>
    let tested_frame := ceil_div_usize r.start_address FRAME_SIZE
    if r.entry_type = MemoryMapEntryType.Usable ∧
        (tested_frame + cont + 1) * FRAME_SIZE ≤ r.start_address + r.size then
      some tested_frame
    else findBitmapSpot cont rest

/-- Loop marking every non-Usable region allocated. -/
def markNonUsable (a : BitMapFrameAllocator) : List MemRegion → Option BitMapFrameAllocator
  | [] => some a
  | r :: rest =>
    if r.entry_type = MemoryMapEntryType.Usable then markNonUsable a rest
    else (a.mark_region r.start_address r.end_address true).bind fun a2 =>
      markNonUsable a2 rest

/-- Loop marking every gap between consecutive regions allocated. -/
def markGapsAux (a : BitMapFrameAllocator) (previous : MemRegion) :
    List MemRegion → Option BitMapFrameAllocator
  | [] => some a
  | current :: rest =>
    (a.mark_region previous.end_address current.start_address true).bind fun a2 =>
      markGapsAux a2 current rest

/-- Embeds the maximum end address computation of new (max_by over the
iterator; unwrap on an empty map panics, hence none). -/
def maxEndAddress : List MemRegion → Option Nat
  | [] => none
  | l => some (l.foldl (fun acc r => max acc r.end_address) 0)

/-- Embeds BitMapFrameAllocator::new.  The slice content after
clear_bitmap is all zeroes (the source zeroes every byte of the freshly
conjured slice before reading it), so the constructed state starts from
List.replicate.  none models any panic along the way. -/
def new (areas : List MemRegion) : Option BitMapFrameAllocator :=
  (maxEndAddress areas).bind fun memory_end =>
  let frames_amount := memory_end / FRAME_SIZE
  let bitmap_length_in_bytes := ceil_div_usize frames_amount 8
  let continuous_frames_amount := ceil_div_usize bitmap_length_in_bytes FRAME_SIZE
  (findBitmapSpot continuous_frames_amount areas).bind fun tested_frame =>
  let a0 : BitMapFrameAllocator :=
    { bitmap_frame := tested_frame
      bitmap_size_in_bytes := bitmap_length_in_bytes
      bitmap_size_in_frames := continuous_frames_amount
      frames_amount := frames_amount
      memory_end := memory_end
      slice := List.replicate bitmap_length_in_bytes 0 }
  (a0.mark_region (tested_frame * FRAME_SIZE)
      (tested_frame * FRAME_SIZE + bitmap_length_in_bytes) true).bind fun a1 =>
  (markNonUsable a1 areas).bind fun a2 =>
  match areas with
  | [] => none
  | p :: rest => markGapsAux a2 p rest

/-- Embeds u8::trailing_ones via an 8-step fuel (a u8 has 8 bits). -/
def trailingOnesAux : Nat → Nat → Nat
  | 0, _ => 0
  | fuel + 1, b => if b % 2 = 1 then trailingOnesAux fuel (b / 2) + 1 else 0

def trailing_ones (b : Nat) : Nat := trailingOnesAux 8 b

/-- First index of a byte different from u8::MAX = 255; embeds the scan
loop of allocate_frame (for a nonempty slice). -/
def firstNonFull : List Nat → Option Nat
  | [] => none
  | b :: rest => if b = 255 then (firstNonFull rest).map (· + 1) else some 0

/-- Embeds FrameAllocator::allocate_frame for BitMapFrameAllocator.  The
outer Option models panics (the unguarded first slice access on an empty
slice, or a mark_frame panic); the inner Option is the out-of-memory
None return of the source. -/
def allocate_frame (a : BitMapFrameAllocator) :
    Option (Option FrameInfo × BitMapFrameAllocator) :=
  match a.slice with
  | [] => none
  | _ :: _ =>
    match firstNonFull a.slice with
    | none => some (none, a)
    | some byte =>
      let t := trailing_ones (a.slice.getD byte 0)
      let index := byte * 8 + t
      if a.frames_amount ≤ index then some (none, a)
      else (a.mark_frame index true).map fun a2 =>
        (some { number := index, address := index * FRAME_SIZE }, a2)

/-- Embeds FrameAllocator::deallocate_frame. -/
def deallocate_frame (a : BitMapFrameAllocator) (frame_info : FrameInfo) :
    Option BitMapFrameAllocator :=
  a.mark_frame frame_info.number false

/-- A frame is free when its bitmap bit is clear; indices outside the
slice read as fully allocated bytes. -/
def frameFree (a : BitMapFrameAllocator) (f : Nat) : Bool :=
  !((a.slice.getD (f / 8) 255).testBit (f % 8))

end BitMapFrameAllocator

/-! ### Paging: paging/mod.rs -/

/-- Embeds paging::TableAccess. -/
inductive TableAccess where
  | Recursive
  | Identity
deriving DecidableEq

/-- Embeds paging::PageInfo. -/
structure PageInfo where
  number : Nat
  address : Nat
deriving DecidableEq

namespace PageInfo

def p4_index (p : PageInfo) : Nat := (p.number >>> 27) &&& 0o777

def p3_index (p : PageInfo) : Nat := (p.number >>> 18) &&& 0o777

def p2_index (p : PageInfo) : Nat := (p.number >>> 9) &&& 0o777

def p1_index (p : PageInfo) : Nat := (p.number >>> 0) &&& 0o777

/-- Embeds PageInfo::from_address; none models the failed assert on a
non-canonical virtual address. -/
def from_address (virtual_address : Nat) : Option PageInfo :=
  if virtual_address < 0x0000800000000000 ∨ 0xffff800000000000 ≤ virtual_address then
    let number := virtual_address / FRAME_SIZE
    some { number := number, address := number * FRAME_SIZE }
  else none

/-- Embeds PageInfo::from_number (no check of any kind). -/
def from_number (number : Nat) : PageInfo :=
  { number := number, address := number * FRAME_SIZE }

end PageInfo

/-- Entry flag bits, from the bitflags block in paging/mod.rs. -/
def EntryFlags.PRESENT : Nat := 1 <<< 0

def EntryFlags.WRITABLE : Nat := 1 <<< 1

def EntryFlags.HUGE_PAGE : Nat := 1 <<< 7

/-- The entry address mask 0x000fffff_fffff000. -/
def ENTRY_ADDRESS_MASK : Nat := 0x000ffffffffff000

namespace Entry

/-- Entry::is_unused: the raw value is zero. -/
def is_unused (e : Nat) : Bool := e == 0

/-- get_flags().contains(PRESENT): bit 0 of the raw value. -/
def present (e : Nat) : Bool := e.testBit 0

/-- get_flags().contains(HUGE_PAGE): bit 7 of the raw value. -/
def huge (e : Nat) : Bool := e.testBit 7

/-- Entry::read_address. -/
def read_address (e : Nat) : Nat := e &&& ENTRY_ADDRESS_MASK

/-- Entry::write: the new raw value, or none for the failed assert when
the frame address collides with flag bits. -/
def write (frame : FrameInfo) (flags : Nat) : Option Nat :=
  if frame.address &&& (0xffffffffffffffff ^^^ ENTRY_ADDRESS_MASK) ≠ 0 then none
  else some ((frame.address ||| flags) % 2 ^ 64)

end Entry

/-- Embeds EntryTable::next_entry_address_recursive: given the virtual
address of the table and the table contents (entry values indexed by
entry number), compute (table_address << 9) | (index << 12) in usize
arithmetic when entry index is present and not huge. -/
def next_entry_address_recursive (table_address : Nat) (t : Nat → Nat) (index : Nat) :
    Option Nat :=
  if Entry.present (t index) && !Entry.huge (t index) then
    some (((table_address <<< 9) ||| (index <<< 12)) % 2 ^ 64)
  else none

/-- Machine state for the page-table manager: memory holds entry tables
at their (table-granular) addresses, alongside the state of a generic
frame allocator of type A (mirroring the T: FrameAllocator parameter). -/
structure PMachine (A : Type) where
  mem : Nat → Option (Nat → Nat)
  alloc : A

/-- Outcome of a page-table operation: either the operation completed
with a value of type α, or the kernel panicked; the panic carries the
machine state at that point. -/
inductive KResult (α σ : Type) where
  | ok : α → KResult α σ
  | panicked : σ → KResult α σ

/-- Embeds EntryTable::create_or_get_table_entry, acting on the table
located at table_address.  allocate is the allocate_frame operation of
the generic frame allocator.  Reading a table address that holds no
table is modelled as a panic (a machine fault in the source). -/
def create_or_get_table_entry {A : Type} (allocate : A → Option FrameInfo × A)
    (table_address index : Nat) (current_table_access : TableAccess)
    (m : PMachine A) : KResult (PMachine A) (PMachine A) :=
  match m.mem table_address with
  | none => KResult.panicked m
  | some t =>
    if Entry.is_unused (t index) then
      match allocate m.alloc with
      | (none, a2) => KResult.panicked { m with alloc := a2 }
      | (some frame, a2) =>
        match Entry.write frame (EntryFlags.PRESENT ||| EntryFlags.WRITABLE) with
        | none => KResult.panicked { m with alloc := a2 }
        | some e2 =>
          let t2 : Nat → Nat := fun i => if i = index then e2 else t i
          let mem2 : Nat → Option (Nat → Nat) :=
            fun x => if x = table_address then some t2 else m.mem x
          let newAddr? : Option Nat :=
            match current_table_access with
            | TableAccess.Recursive => next_entry_address_recursive table_address t2 index
            | TableAccess.Identity => some frame.address
          match newAddr? with
          | none => KResult.panicked { mem := mem2, alloc := a2 }
          | some na =>
            KResult.ok
              { mem := fun x => if x = na then some (fun _ => 0) else mem2 x
                alloc := a2 }
    else KResult.ok m

/-- One Identity-mode descent step of p4_map: create_or_get on the entry,
then pointed_frame().unwrap() re-reads the entry; the unwrap panics when
the entry is still not present. -/
def stepIdentity {A : Type} (allocate : A → Option FrameInfo × A)
    (table_address index : Nat) (m : PMachine A) : KResult (Nat × PMachine A) (PMachine A) :=
  match create_or_get_table_entry allocate table_address index TableAccess.Identity m with
  | KResult.panicked m2 => KResult.panicked m2
  | KResult.ok m2 =>
    match m2.mem table_address with
    | none => KResult.panicked m2
    | some t =>
      if Entry.present (t index) then KResult.ok (Entry.read_address (t index), m2)
      else KResult.panicked m2

/-- One Recursive-mode descent step of p4_map: create_or_get on the
entry, then next_entry_address_recursive; its expect panics on none. -/
def stepRecursive {A : Type} (allocate : A → Option FrameInfo × A)
    (table_address index : Nat) (m : PMachine A) : KResult (Nat × PMachine A) (PMachine A) :=
  match create_or_get_table_entry allocate table_address index TableAccess.Recursive m with
  | KResult.panicked m2 => KResult.panicked m2
  | KResult.ok m2 =>
    match m2.mem table_address with
    | none => KResult.panicked m2
    | some t =>
      match next_entry_address_recursive table_address t index with
      | none => KResult.panicked m2
      | some a => KResult.ok (a, m2)

def descentStep {A : Type} (access : TableAccess) (allocate : A → Option FrameInfo × A)
    (table_address index : Nat) (m : PMachine A) : KResult (Nat × PMachine A) (PMachine A) :=
  match access with
  | TableAccess.Identity => stepIdentity allocate table_address index m
  | TableAccess.Recursive => stepRecursive allocate table_address index m

/-- Embeds EntryTable::p4_map, starting from the p4 table located at
p4_address.  Both access modes descend p4 to p1 through the same three
steps (differing in how the next table is reached), then act on the p1
entry: a used entry with allow_overwrite = false panics (before any
write); otherwise the entry is written with (address | flags | PRESENT).
The invalidate flag only triggers the INVLPG instruction, which has no
effect on the modelled state. -/
def p4_map {A : Type} (allocate : A → Option FrameInfo × A) (p4_address : Nat)
    (frame : FrameInfo) (page : PageInfo) (flags : Nat)
    (allow_overwrite invalidate_addres : Bool) (current_table_access : TableAccess)
    (m : PMachine A) : KResult (PMachine A) (PMachine A) :=
  match descentStep current_table_access allocate p4_address page.p4_index m with
  | KResult.panicked m2 => KResult.panicked m2
  | KResult.ok (t3, m2) =>
    match descentStep current_table_access allocate t3 page.p3_index m2 with
    | KResult.panicked m3 => KResult.panicked m3
    | KResult.ok (t2, m3) =>
      match descentStep current_table_access allocate t2 page.p2_index m3 with
      | KResult.panicked m4 => KResult.panicked m4
      | KResult.ok (t1, m4) =>
        match m4.mem t1 with
        | none => KResult.panicked m4
        | some t =>
          let e := t page.p1_index
          if !Entry.is_unused e && !allow_overwrite then KResult.panicked m4
          else
            match Entry.write frame (flags ||| EntryFlags.PRESENT) with
            | none => KResult.panicked m4
            | some e2 =>
              KResult.ok
                { m4 with
                  mem := fun x =>
                    if x = t1 then some (fun i => if i = page.p1_index then e2 else t i)
                    else m4.mem x }

/-- Pure read-only description of one descent step: the address of the
next table reached from the entry at index of the table at table_address,
in the given access mode, when that entry is already present (and, in
Recursive mode, not huge).  none when the step would allocate, fault or
panic instead. -/
def descend1 (access : TableAccess) (mem : Nat → Option (Nat → Nat))
    (table_address index : Nat) : Option Nat :=
  match mem table_address with
  | none => none
  | some t =>
    if Entry.is_unused (t index) then none
    else
      match access with
      | TableAccess.Identity =>
        if Entry.present (t index) then some (Entry.read_address (t index)) else none
      | TableAccess.Recursive => next_entry_address_recursive table_address t index

/-- The p1-table address reached by the three descent steps of p4_map
when the whole path is already present. -/
def descendPath (access : TableAccess) (mem : Nat → Option (Nat → Nat))
    (p4_address : Nat) (page : PageInfo) : Option Nat :=
  (descend1 access mem p4_address page.p4_index).bind fun t3 =>
  (descend1 access mem t3 page.p3_index).bind fun t2 =>
  descend1 access mem t2 page.p2_index

/-! ### Heap allocator: heap/mod.rs -/

/-- Address-layout constants from lib.rs. -/
def KERNEL_OFFSET : Nat := 0xffffffff80000000

def MAX_HEAP : Nat := 0x100000000

def HEAP_OFFSET : Nat := KERNEL_OFFSET - MAX_HEAP

/-- Embeds heap::ListHeapNode, the packed in-place hole descriptor. -/
structure ListHeapNode where
  is_last : Bool
  next_node : Nat
  hole_size : Nat
deriving DecidableEq

/-- Embeds heap::LIST_HEAP_NODE_SIZE = size_of::<ListHeapNode>().  With
repr(packed) there is no padding, so the size is the sum of the field
sizes on x86-64: 1 byte for the bool plus 8 bytes for each usize. -/
def LIST_HEAP_NODE_SIZE : Nat := 1 + 8 + 8

/-- One recorded invocation of p4_table.p4_map made while growing the
heap (the arguments the heap allocator passes). -/
structure MapCall where
  frame : FrameInfo
  page : PageInfo
  flags : Nat
  allow_overwrite : Bool
  invalidate : Bool
  access : TableAccess
deriving DecidableEq

/-- State of LinkedListHeapAllocator (inner state plus its generic frame
allocator).  Heap memory holds hole nodes at their virtual addresses, at
node granularity; the sentinel inner.holes lives at sentinel_addr (the
address of the allocator struct itself, outside the heap region).  The
frame allocator is modelled by the list of frames it will hand out next
(popping one models allocate_frame; an empty list models its None).
calls accumulates the p4_map invocations in order. -/
structure HeapWorld where
  mem : Nat → Option ListHeapNode
  sentinel_addr : Nat
  virtual_start_frame : Nat
  max_memory_amount : Nat
  max_currently_used : Nat
  frames : List FrameInfo
  calls : List MapCall

/-- Node-granular store update. -/
def memSet (m : Nat → Option ListHeapNode) (a : Nat) (n : ListHeapNode) :
    Nat → Option ListHeapNode :=
  fun x => if x = a then some n else m x

/-- Outcome of the hole-list search inside alloc: a hole was taken (with
the returned address and updated world), the walk hit is_last with no fit,
or the model got stuck (fuel ran out or a non-node address was read, both
impossible along well-formed runs). -/
inductive SearchRes where
  | found : Nat → HeapWorld → SearchRes
  | noFit : SearchRes
  | stuck : SearchRes

/-- Outcome of alloc. -/
inductive AllocResult where
  | ok : Nat → HeapWorld → AllocResult
  | panicked : HeapWorld → AllocResult
  | stuck : AllocResult

/-- Embeds the hole-search loop of LinkedListHeapAllocator::alloc.
previous is the address of the previously visited node (None at the
sentinel).  When a hole fits (hole_size >= size + LIST_HEAP_NODE_SIZE),
the replacement node is written at current + size inheriting is_last and
next_node, the predecessor (if any) is relinked, and the hole address is
returned. -/
def allocSearch (size : Nat) : Nat → Option Nat → Nat → HeapWorld → SearchRes
  | 0, _, _, _ => SearchRes.stuck
  | fuel + 1, previous, current, w =>
    match w.mem current with
    | none => SearchRes.stuck
    | some node =>
      if size + LIST_HEAP_NODE_SIZE ≤ node.hole_size then
        let hole_address := current
        let mem1 := memSet w.mem (hole_address + size)
          { is_last := node.is_last
            next_node := node.next_node
            hole_size := node.hole_size - size }
        match previous with
        | none => SearchRes.found hole_address { w with mem := mem1 }
        | some p =>
          match mem1 p with
          | none => SearchRes.stuck
          | some pn =>
            SearchRes.found hole_address
              { w with mem := memSet mem1 p { pn with next_node := hole_address + size } }
      else if node.is_last then SearchRes.noFit
      else allocSearch size fuel (some current) node.next_node w

/-- The arguments the heap allocator passes to p4_map for one new frame
mapped at page number virtual_start_frame + i. -/
def heapMapCall (f : FrameInfo) (pageNumber : Nat) : MapCall :=
  { frame := f
    page := PageInfo.from_number pageNumber
    flags := EntryFlags.PRESENT ||| EntryFlags.WRITABLE
    allow_overwrite := false
    invalidate := true
    access := TableAccess.Recursive }

/-- Embeds the catch-up mapping loop of alloc: for each virtual frame
index, pop a frame from the frame allocator (panicking on None, the
expect in the source) and record the p4_map call. -/
def mapLoop (vsf : Nat) : List Nat → HeapWorld → KResult HeapWorld HeapWorld
  | [], w => KResult.ok w
  | i :: rest, w =>
    match w.frames with
    | [] => KResult.panicked w
    | f :: fr =>
      mapLoop vsf rest
        { w with frames := fr, calls := w.calls ++ [heapMapCall f (vsf + i)] }

/-- Embeds the extension path of alloc (no hole fitted): advance the high
water mark, panic when it reaches max_memory_amount, map the missing
frames, and return prev_max_currently_used + HEAP_OFFSET. -/
def allocExtend (w : HeapWorld) (size : Nat) : AllocResult :=
  let prev_max_currently_used := w.max_currently_used
  let w1 := { w with max_currently_used := w.max_currently_used + size }
  if w1.max_memory_amount ≤ w1.max_currently_used then AllocResult.panicked w1
  else
    let prev_frame := ceil_div_usize prev_max_currently_used FRAME_SIZE
    let current_frame := ceil_div_usize w1.max_currently_used FRAME_SIZE
    let afterMap :=
      if prev_frame < current_frame then
        mapLoop w1.virtual_start_frame
          (List.range' prev_frame (current_frame - prev_frame)) w1
      else KResult.ok w1
    match afterMap with
    | KResult.panicked w2 => AllocResult.panicked w2
    | KResult.ok w2 => AllocResult.ok (prev_max_currently_used + HEAP_OFFSET) w2

/-- Embeds LinkedListHeapAllocator::alloc (GlobalAlloc::alloc).  The
request is normalized to at least LIST_HEAP_NODE_SIZE, the hole list is
searched from the sentinel, and on no fit the heap is extended. -/
def alloc (fuel : Nat) (w : HeapWorld) (layoutSize : Nat) : AllocResult :=
  let size := if layoutSize < LIST_HEAP_NODE_SIZE then LIST_HEAP_NODE_SIZE else layoutSize
  match allocSearch size fuel none w.sentinel_addr w with
  | SearchRes.found ptr w2 => AllocResult.ok ptr w2
  | SearchRes.stuck => AllocResult.stuck
  | SearchRes.noFit => allocExtend w size

/-- Embeds the insertion walk of LinkedListHeapAllocator::dealloc.  none
models a stuck run (fuel exhausted or a non-node address read).  The
first (sentinel) node is recognized by address equality, embedding the
core::ptr::eq(current, first) checks. -/
def deallocLoop (ptr size : Nat) : Nat → Nat → HeapWorld → Option HeapWorld
  | 0, _, _ => none
  | fuel + 1, current, w =>
    match w.mem current with
    | none => none
    | some node =>
      if node.is_last then
        if node.hole_size + current = ptr ∧ current ≠ w.sentinel_addr then
          some { w with mem := memSet w.mem current { node with hole_size := node.hole_size + size } }
        else
          let mem1 := memSet w.mem current { node with is_last := false, next_node := ptr }
          let mem2 := memSet mem1 ptr { hole_size := size, is_last := true, next_node := 0 }
          some { w with mem := mem2 }
      else
        if current < ptr then
          let next_hole_address := node.next_node
          match w.mem next_hole_address with
          | none => none
          | some next =>
            let new_hole_address := ptr
            if current + node.hole_size = ptr ∧ current ≠ w.sentinel_addr then
              if new_hole_address + size = next_hole_address then
                let n2 : ListHeapNode :=
                  { node with hole_size := node.hole_size + size + next.hole_size
                              next_node := next.next_node }
                some { w with mem := memSet w.mem current n2 }
              else
                let n2 : ListHeapNode := { node with hole_size := node.hole_size + size }
                some { w with mem := memSet w.mem current n2 }
            else
              if new_hole_address + size = next_hole_address then
                let mem1 := memSet w.mem current { node with next_node := new_hole_address }
                let n2 : ListHeapNode :=
                  { next_node := next.next_node
                    is_last := next.is_last
                    hole_size := size + next.hole_size }
                some { w with mem := memSet mem1 new_hole_address n2 }
              else
                let mem1 := memSet w.mem current { node with next_node := new_hole_address }
                let n2 : ListHeapNode :=
                  { next_node := next_hole_address
                    is_last := false
                    hole_size := size }
                some { w with mem := memSet mem1 new_hole_address n2 }
        else deallocLoop ptr size fuel node.next_node w

/-- Embeds LinkedListHeapAllocator::dealloc (GlobalAlloc::dealloc). -/
def dealloc (fuel : Nat) (w : HeapWorld) (ptr layoutSize : Nat) : Option HeapWorld :=
  let size := if layoutSize < LIST_HEAP_NODE_SIZE then LIST_HEAP_NODE_SIZE else layoutSize
  deallocLoop ptr size fuel w.sentinel_addr w

/-- The pointer returned by an alloc outcome, when it returned one. -/
def AllocResult.ptr? : AllocResult → Option Nat
  | AllocResult.ok p _ => some p
  | _ => none

/-- The world of a successful alloc outcome. -/
def AllocResult.world? : AllocResult → Option HeapWorld
  | AllocResult.ok _ w => some w
  | _ => none

/-- Whether the hole search came back empty-handed. -/
def SearchRes.isNoFit : SearchRes → Bool
  | SearchRes.noFit => true
  | _ => false

/-- Runs the C3 scenario p1 = alloc(256); dealloc(p1, 256);
p2 = alloc(256) and yields (p1, p2) when every step succeeds. -/
def c3run (fuel : Nat) (w : HeapWorld) : Option (Nat × Nat) :=
  match alloc fuel w 256 with
  | AllocResult.ok p1 w1 =>
    match dealloc fuel w1 p1 256 with
    | some w2 =>
      match alloc fuel w2 256 with
      | AllocResult.ok p2 _ => some (p1, p2)
      | _ => none
    | none => none
  | _ => none

/-- The concrete memory map of the C1 scenario. -/
def c1Map : List MemRegion :=
  [ { start_address := 0, size := 0xA0000, entry_type := MemoryMapEntryType.Usable }
  , { start_address := 0xA0000, size := 0x60000, entry_type := MemoryMapEntryType.Reserved }
  , { start_address := 0x100000, size := 0x7F00000, entry_type := MemoryMapEntryType.Usable } ]

def c1Alloc : Option BitMapFrameAllocator := BitMapFrameAllocator.new c1Map

/-! ### Concrete inputs used by counterexamples and failing-input runs -/

/-- Fresh heap state: empty hole list (the sentinel is the only node,
is_last and of size zero, as built by LinkedListHeapAllocator::new), high
water mark zero, the configuration of lib.rs, one frame available. -/
def c3World : HeapWorld :=
  { mem := fun a =>
      if a = KERNEL_OFFSET then some { is_last := true, next_node := 0, hole_size := 0 }
      else none
    sentinel_addr := KERNEL_OFFSET
    virtual_start_frame := HEAP_OFFSET / FRAME_SIZE
    max_memory_amount := MAX_HEAP
    max_currently_used := 0
    frames := [FrameInfo.from_number 5]
    calls := [] }

/-- Heap state with a sorted, non-abutting hole list
sentinel -> (HEAP_OFFSET, 17) -> (HEAP_OFFSET + 34, 17); reachable by
allocating five 17-byte blocks and freeing the first, the third and
(about to happen) the fifth. -/
def c4World : HeapWorld :=
  { mem := fun a =>
      if a = KERNEL_OFFSET then
        some { is_last := false, next_node := HEAP_OFFSET, hole_size := 0 }
      else if a = HEAP_OFFSET then
        some { is_last := false, next_node := HEAP_OFFSET + 34, hole_size := 17 }
      else if a = HEAP_OFFSET + 34 then
        some { is_last := true, next_node := 0, hole_size := 17 }
      else none
    sentinel_addr := KERNEL_OFFSET
    virtual_start_frame := HEAP_OFFSET / FRAME_SIZE
    max_memory_amount := MAX_HEAP
    max_currently_used := 102
    frames := []
    calls := [] }

/-- Allocator state for the C7 counterexample: memory_end = 36864 bytes,
so memory_end / 4096 = 9 frames, with the two bitmap bytes that cover
them. -/
def c7A : BitMapFrameAllocator :=
  { bitmap_frame := 0
    bitmap_size_in_bytes := 2
    bitmap_size_in_frames := 1
    frames_amount := 9
    memory_end := 36864
    slice := [0, 0] }

/-! ### Claims -/

/-- Claim C1, counterexample: on the given memory map the constructed
bitmap is not placed at frame 0x100, and the first allocation does not
return frame 0. -/
theorem c1_counterexample :
    (c1Alloc.map fun a => a.bitmap_frame) ≠ some 0x100 ∧
    (c1Alloc.bind fun a => a.allocate_frame.map fun p => p.1) ≠
      some (some { number := 0, address := 0 }) :=
  ⟨by decide, by decide⟩

/-- Claim C1 (amended): for the memory map of the claim, new places the
bitmap at frame 0 (the first fitting Usable region starts at address 0)
occupying one frame of 0x1000 bitmap bytes for 0x8000 frames; frame 0 is
allocated (the bitmap itself), frames 1..0xA0 are free, frames
0xA0..0x100 are allocated (the Reserved region), frames 0x100..0x140 are
free, and the first allocate_frame returns frame 1 (address 0x1000). -/
theorem c1_bitmap_construction_amended :
    (c1Alloc.map fun a =>
      (a.bitmap_frame, a.bitmap_size_in_frames, a.bitmap_size_in_bytes, a.frames_amount)) =
      some (0, 1, 0x1000, 0x8000) ∧
    (c1Alloc.map fun a => a.frameFree 0) = some false ∧
    (c1Alloc.map fun a => (List.range' 1 0x9F).all fun f => a.frameFree f) = some true ∧
    (c1Alloc.map fun a => (List.range' 0xA0 0x60).all fun f => !(a.frameFree f)) = some true ∧
    (c1Alloc.map fun a => (List.range' 0x100 0x40).all fun f => a.frameFree f) = some true ∧
    (c1Alloc.bind fun a => a.allocate_frame.map fun p => p.1) =
      some (some { number := 1, address := 0x1000 }) :=
  ⟨by decide, by decide, by decide, by decide, by decide, by decide⟩

/-- Claim C3, counterexample: from the fresh heap state, alloc(256);
dealloc; alloc(256) returns p2 = p1 + 256, not p1: the freed 256-byte
hole never satisfies the fit test hole_size >= 256 + 17. -/
theorem c3_counterexample :
    c3run 10 c3World = some (HEAP_OFFSET, HEAP_OFFSET + 256) ∧
    HEAP_OFFSET + 256 ≠ HEAP_OFFSET :=
  ⟨by decide, by decide⟩

/-- Claim C4: dealloc on the sorted non-abutting list
sentinel -> (HEAP_OFFSET, 17) -> (HEAP_OFFSET + 34, 17) of a block at
HEAP_OFFSET + 68 inserts the freed block right after the first hole,
producing HEAP_OFFSET -> HEAP_OFFSET + 68 -> HEAP_OFFSET + 34: the
successor of the node at HEAP_OFFSET + 68 has a smaller address, so the
claimed sortedness invariant is not preserved by dealloc. -/
theorem c4_dealloc_breaks_sorted_order :
    (dealloc 5 c4World (HEAP_OFFSET + 68) 17).map
        (fun w => (w.mem HEAP_OFFSET, w.mem (HEAP_OFFSET + 68))) =
      some (some { is_last := false, next_node := HEAP_OFFSET + 68, hole_size := 17 },
            some { is_last := false, next_node := HEAP_OFFSET + 34, hole_size := 17 }) ∧
    HEAP_OFFSET + 34 < HEAP_OFFSET + 68 :=
  ⟨by decide, by decide⟩

/-- Claim C7, counterexample: mark_frame does not bounds-check against
memory_end / 4096: frame 12 is beyond memory_end / 4096 = 9, where the
claim demands a panic, yet the call succeeds (the source compares the
frame number against the byte address memory_end instead). -/
theorem c7_counterexample :
    c7A.mark_frame 12 true ≠ none ∧ c7A.memory_end / 4096 < 12 :=
  ⟨by decide, by decide⟩

/-- Claim C8 (confirmed): PageInfo::from_address, the only constructor
taking a virtual address, accepts exactly the canonical addresses: it
panics precisely on addresses at or above 0x0000_8000_0000_0000 and
below 0xffff_8000_0000_0000. -/
theorem c8_from_address_canonical : ∀ virtual_address : Nat,
    ((PageInfo.from_address virtual_address).isSome ↔
      (virtual_address < 0x0000800000000000 ∨ 0xffff800000000000 ≤ virtual_address)) ∧
    (PageInfo.from_address virtual_address = none ↔
      (0x0000800000000000 ≤ virtual_address ∧ virtual_address < 0xffff800000000000)) := by
  intro va
  unfold PageInfo.from_address
  by_cases h : va < 0x0000800000000000 ∨ 0xffff800000000000 ≤ va
  · refine ⟨by simp [h], by simp [h]; omega⟩
  · refine ⟨by simp [h], by simp [h]; omega⟩

/-- Claim C9 (confirmed): next_entry_address_recursive returns
(V << 9) | (k << 12) in usize arithmetic exactly when entry k is present
and not huge, and none otherwise. -/
theorem c9_next_entry_address_recursive : ∀ (V : Nat) (t : Nat → Nat) (k : Nat),
    (next_entry_address_recursive V t k =
        some (((V <<< 9) ||| (k <<< 12)) % 2 ^ 64) ↔
      (Entry.present (t k) = true ∧ Entry.huge (t k) = false)) ∧
    (next_entry_address_recursive V t k = none ↔
      ¬(Entry.present (t k) = true ∧ Entry.huge (t k) = false)) := by
  intro V t k
  unfold next_entry_address_recursive
  cases hp : Entry.present (t k) <;> cases hh : Entry.huge (t k) <;> simp

/-! ### Byte-level helper lemmas shared by the frame-allocator claims -/

lemma getD_set_self {l : List Nat} {i v : Nat} (h : i < l.length) :
    (l.set i v).getD i 255 = v := by
  simp [List.getD_eq_getElem?_getD, List.getElem?_set_self h]

lemma getD_set_other {l : List Nat} (i v j : Nat) (h : i ≠ j) :
    (l.set i v).getD j 255 = l.getD j 255 := by
  simp [List.getD_eq_getElem?_getD, List.getElem?_set_ne h]

lemma or_bit_self (old i : Nat) : (old ||| (1 <<< i)).testBit i = true := by
  simp [Nat.shiftLeft_eq, Nat.testBit_two_pow_self]

lemma or_bit_other (old i j : Nat) (h : j ≠ i) :
    (old ||| (1 <<< i)).testBit j = old.testBit j := by
  rw [Nat.testBit_or, Nat.shiftLeft_eq, one_mul, Nat.testBit_two_pow_of_ne (Ne.symm h)]
  simp

lemma and_mask_self (old i : Nat) (hi : i < 8) :
    (old &&& (255 ^^^ (1 <<< i))).testBit i = false := by
  rw [Nat.testBit_and, Nat.testBit_xor, Nat.shiftLeft_eq, one_mul,
    Nat.testBit_two_pow_self]
  have h255 : (255 : Nat) = 2 ^ 8 - 1 := rfl
  rw [h255, Nat.testBit_two_pow_sub_one]
  simp [hi]

lemma and_mask_other (old i j : Nat) (hj : j < 8) (h : j ≠ i) :
    (old &&& (255 ^^^ (1 <<< i))).testBit j = old.testBit j := by
  rw [Nat.testBit_and, Nat.testBit_xor, Nat.shiftLeft_eq, one_mul,
    Nat.testBit_two_pow_of_ne (Ne.symm h)]
  have h255 : (255 : Nat) = 2 ^ 8 - 1 := rfl
  rw [h255, Nat.testBit_two_pow_sub_one]
  simp [hj]

/-- Claim C7 (amended): mark_frame panics exactly when frame > memory_end
(the check of the source compares the frame number against the byte
address memory_end, not against memory_end / 4096) or when the byte index
frame / 8 falls outside the bitmap slice; for a frame passing both checks
it sets (allocated = true) or clears (allocated = false) bit frame % 8 of
bitmap byte frame / 8 and changes nothing else. -/
theorem c7_mark_frame_amended (a : BitMapFrameAllocator) (f : Nat) (b : Bool) :
    (a.mark_frame f b = none ↔ (a.memory_end < f ∨ a.slice.length ≤ f / 8)) ∧
    (∀ a2, a.mark_frame f b = some a2 →
      a2.bitmap_frame = a.bitmap_frame ∧
      a2.bitmap_size_in_bytes = a.bitmap_size_in_bytes ∧
      a2.bitmap_size_in_frames = a.bitmap_size_in_frames ∧
      a2.frames_amount = a.frames_amount ∧
      a2.memory_end = a.memory_end ∧
      a2.slice.length = a.slice.length ∧
      a2.frameFree f = !b ∧
      (∀ g, g ≠ f → a2.frameFree g = a.frameFree g)) := by
  constructor
  · unfold BitMapFrameAllocator.mark_frame
    by_cases hm : a.memory_end < f
    · simp [hm]
    · simp only [if_neg hm]
      cases hg : a.slice.get? (f / 8) with
      | none =>
        have hlen : a.slice.length ≤ f / 8 := List.get?_eq_none.1 hg
        simp [hlen, hm]
      | some old =>
        obtain ⟨hlen, -⟩ := List.get?_eq_some.1 hg
        constructor
        · intro h; exact absurd h (by simp)
        · intro h; exact absurd h (by omega)
  · intro a2 h2
    unfold BitMapFrameAllocator.mark_frame at h2
    by_cases hm : a.memory_end < f
    · simp [hm] at h2
    · simp only [if_neg hm] at h2
      cases hg : a.slice.get? (f / 8) with
      | none => rw [hg] at h2; exact absurd h2 (by simp)
      | some old =>
        rw [hg] at h2
        simp only [Option.some.injEq] at h2
        obtain ⟨hlen, -⟩ := List.get?_eq_some.1 hg
        have hold : a.slice.getD (f / 8) 255 = old := by
          simp [List.getD_eq_getElem?_getD, ← List.get?_eq_getElem?, hg]
        subst h2
        refine ⟨rfl, rfl, rfl, rfl, rfl, by simp, ?_, ?_⟩
        · unfold BitMapFrameAllocator.frameFree
          rw [getD_set_self hlen]
          cases b with
          | true => simp [or_bit_self]
          | false => simp [and_mask_self old (f % 8) (Nat.mod_lt _ (by omega))]
        · intro g hgne
          unfold BitMapFrameAllocator.frameFree
          by_cases hb : f / 8 = g / 8
          · have hbit : g % 8 ≠ f % 8 := by omega
            rw [← hb, getD_set_self hlen, hold]
            cases b with
            | true => simp [or_bit_other old (f % 8) (g % 8) hbit]
            | false => simp [and_mask_other old (f % 8) (g % 8) (Nat.mod_lt _ (by omega)) hbit]
          · rw [getD_set_other _ _ _ hb]

/-- The allocator c7A after marking frame 3 allocated. -/
def c7A2 : BitMapFrameAllocator := { c7A with slice := [8, 0] }

/-- Witness for C7: marking frame 3 of c7A succeeds and behaves as the
amended claim states. -/
theorem c7_witness :
    c7A2.frameFree 3 = !true ∧ c7A2.frameFree 2 = c7A.frameFree 2 := by
  have h := (c7_mark_frame_amended c7A 3 true).2 c7A2 (by decide)
  exact ⟨h.2.2.2.2.2.2.1, h.2.2.2.2.2.2.2 2 (by decide)⟩

namespace BitMapFrameAllocator

lemma trailing_ones_spec : ∀ b < 256, b ≠ 255 →
    trailing_ones b < 8 ∧ b.testBit (trailing_ones b) = false ∧
    ∀ m < trailing_ones b, b.testBit m = true := by decide

lemma trailing_ones_least : ∀ b < 256, ∀ r < 8,
    (∀ m < r, b.testBit m = true) → b.testBit r = false → trailing_ones b = r := by decide

lemma byte_full : ∀ b < 256, (∀ m < 8, b.testBit m = true) → b = 255 := by decide

lemma bit_of_255 : ∀ r < 8, (255 : Nat).testBit r = true := by decide

lemma firstNonFull_eq_none : ∀ (s : List Nat), firstNonFull s = none →
    ∀ j < s.length, s.getD j 255 = 255 := by
  intro s
  induction s with
  | nil => intro _ j hj; simp at hj
  | cons b rest ih =>
    intro h j hj
    simp only [firstNonFull] at h
    by_cases hb : b = 255
    · rw [if_pos hb] at h
      have hr : firstNonFull rest = none := by
        cases hfr : firstNonFull rest with
        | none => rfl
        | some i => rw [hfr] at h; simp at h
      cases j with
      | zero => simpa using hb
      | succ j2 => simpa using ih hr j2 (by simpa using hj)
    · rw [if_neg hb] at h; simp at h

lemma firstNonFull_eq_some : ∀ (s : List Nat) (i : Nat), firstNonFull s = some i →
    i < s.length ∧ s.getD i 255 ≠ 255 ∧ ∀ j < i, s.getD j 255 = 255 := by
  intro s
  induction s with
  | nil => intro i h; simp [firstNonFull] at h
  | cons b rest ih =>
    intro i h
    simp only [firstNonFull] at h
    by_cases hb : b = 255
    · rw [if_pos hb] at h
      cases hfr : firstNonFull rest with
      | none => rw [hfr] at h; simp at h
      | some i2 =>
        rw [hfr] at h
        simp only [Option.map_some', Option.some.injEq] at h
        obtain ⟨h1, h2, h3⟩ := ih i2 hfr
        subst h
        refine ⟨by simpa using h1, by simpa using h2, ?_⟩
        intro j hj
        cases j with
        | zero => simpa using hb
        | succ j2 => simpa using h3 j2 (by omega)
    · rw [if_neg hb] at h
      simp only [Option.some.injEq] at h
      subst h
      exact ⟨by simp, by simpa using hb, fun j hj => absurd hj (by omega)⟩

lemma firstNonFull_of_least : ∀ (s : List Nat) (i : Nat), i < s.length →
    s.getD i 255 ≠ 255 → (∀ j < i, s.getD j 255 = 255) → firstNonFull s = some i := by
  intro s
  induction s with
  | nil => intro i hi _ _; simp at hi
  | cons b rest ih =>
    intro i hi hne hall
    simp only [firstNonFull]
    cases i with
    | zero =>
      have hb : b ≠ 255 := by simpa using hne
      rw [if_neg hb]
    | succ i2 =>
      have hb : b = 255 := by simpa using hall 0 (by omega)
      have hrest : firstNonFull rest = some i2 :=
        ih i2 (by simpa using hi) (by simpa using hne)
          (fun j hj => by simpa using hall (j + 1) (by omega))
      rw [if_pos hb, hrest]
      rfl

/-- Behaviour of mark_frame on an in-range frame: the bit is set or
cleared and nothing else changes. -/
lemma mark_frame_some_spec (a : BitMapFrameAllocator) (f : Nat) (b : Bool)
    (hm : ¬ a.memory_end < f) (hl : f / 8 < a.slice.length) :
    ∃ a2, a.mark_frame f b = some a2 ∧ a2.frameFree f = !b ∧
      (∀ g, g ≠ f → a2.frameFree g = a.frameFree g) ∧
      a2.frames_amount = a.frames_amount ∧ a2.memory_end = a.memory_end ∧
      a2.slice.length = a.slice.length := by
  cases hg : a.slice.get? (f / 8) with
  | none => exact absurd (List.get?_eq_none.1 hg) (by omega)
  | some old =>
    have hold : a.slice.getD (f / 8) 255 = old := by
      simp [List.getD_eq_getElem?_getD, ← List.get?_eq_getElem?, hg]
    refine ⟨{ a with
        slice := a.slice.set (f / 8)
          (if b then old ||| (1 <<< (f % 8)) else old &&& (255 ^^^ (1 <<< (f % 8)))) },
      ?_, ?_, ?_, rfl, rfl, by simp⟩
    · unfold mark_frame
      rw [if_neg hm]
      simp only [hg]
    · unfold frameFree
      rw [getD_set_self hl]
      cases b with
      | true => simp [or_bit_self]
      | false => simp [and_mask_self old (f % 8) (Nat.mod_lt _ (by omega))]
    · intro g hgne
      unfold frameFree
      by_cases hb : f / 8 = g / 8
      · have hbit : g % 8 ≠ f % 8 := by omega
        rw [← hb, getD_set_self hl, hold]
        cases b with
        | true => simp [or_bit_other old (f % 8) (g % 8) hbit]
        | false => simp [and_mask_other old (f % 8) (g % 8) (Nat.mod_lt _ (by omega)) hbit]
      · rw [getD_set_other _ _ _ hb]

lemma allocate_frame_none_case (a : BitMapFrameAllocator) (hne : a.slice ≠ [])
    (h : firstNonFull a.slice = none) : a.allocate_frame = some (none, a) := by
  unfold allocate_frame
  revert h
  cases hs : a.slice with
  | nil => exact absurd hs hne
  | cons hd tl => intro h; rw [h]

lemma allocate_frame_some_case (a : BitMapFrameAllocator) (hne : a.slice ≠ []) (i : Nat)
    (h : firstNonFull a.slice = some i) :
    a.allocate_frame =
      (if a.frames_amount ≤ i * 8 + trailing_ones (a.slice.getD i 0) then some (none, a)
       else (a.mark_frame (i * 8 + trailing_ones (a.slice.getD i 0)) true).map fun a2 =>
         (some { number := i * 8 + trailing_ones (a.slice.getD i 0),
                 address := (i * 8 + trailing_ones (a.slice.getD i 0)) * FRAME_SIZE },
          a2)) := by
  unfold allocate_frame
  revert h
  cases hs : a.slice with
  | nil => exact absurd hs hne
  | cons hd tl => intro h; rw [h]

end BitMapFrameAllocator

/-- Claim C2 (confirmed): for every well-formed allocator state (slice
length matching ceil(frames_amount / 8), byte values below 256, a
positive frame count not exceeding memory_end): if some frame k below
frames_amount is free and every lower-numbered frame is allocated, then
allocate_frame returns frame k (address k * 4096) and marks exactly k
allocated; if every frame below frames_amount is allocated, it returns
None and leaves the state unchanged. -/
theorem c2_allocate_frame_lowest_free (a : BitMapFrameAllocator)
    (hlen : a.slice.length = ceil_div_usize a.frames_amount 8)
    (hbytes : ∀ x ∈ a.slice, x < 256)
    (hfa : 0 < a.frames_amount)
    (hmem : a.frames_amount ≤ a.memory_end) :
    (∀ k, a.frameFree k = true → (∀ j, j < k → a.frameFree j = false) →
      k < a.frames_amount →
      ∃ a2, a.allocate_frame =
          some (some { number := k, address := k * FRAME_SIZE }, a2) ∧
        a2.frameFree k = false ∧
        (∀ j, j ≠ k → a2.frameFree j = a.frameFree j) ∧
        a2.frames_amount = a.frames_amount) ∧
    ((∀ f, f < a.frames_amount → a.frameFree f = false) →
      a.allocate_frame = some (none, a)) := by
  have hlenpos : 0 < a.slice.length := by
    rw [hlen]; unfold ceil_div_usize; omega
  have hne : a.slice ≠ [] := by
    cases hsl : a.slice
    · rw [hsl] at hlenpos; simp at hlenpos
    · simp
  constructor
  · intro k hfree hleast hk
    have hr8 : k % 8 < 8 := by omega
    have hilen : k / 8 < a.slice.length := by
      rw [hlen]; unfold ceil_div_usize; omega
    have hold : a.slice.getD (k / 8) 0 = a.slice.getD (k / 8) 255 := by
      simp [List.getD_eq_getElem?_getD, List.getElem?_eq_getElem hilen]
    have hBmem : a.slice.getD (k / 8) 255 ∈ a.slice := by
      rw [List.getD_eq_getElem?_getD, List.getElem?_eq_getElem hilen]
      exact List.getElem_mem hilen
    have hBlt : a.slice.getD (k / 8) 255 < 256 := hbytes _ hBmem
    have hBbit : (a.slice.getD (k / 8) 255).testBit (k % 8) = false := by
      simp only [BitMapFrameAllocator.frameFree] at hfree
      simpa using hfree
    have hBne : a.slice.getD (k / 8) 255 ≠ 255 := by
      intro hEq
      rw [hEq, BitMapFrameAllocator.bit_of_255 _ hr8] at hBbit
      simp at hBbit
    have hprev : ∀ j, j < k / 8 → a.slice.getD j 255 = 255 := by
      intro j hj
      have hjlen : j < a.slice.length := by omega
      have hjmem : a.slice.getD j 255 ∈ a.slice := by
        rw [List.getD_eq_getElem?_getD, List.getElem?_eq_getElem hjlen]
        exact List.getElem_mem hjlen
      apply BitMapFrameAllocator.byte_full _ (hbytes _ hjmem)
      intro m hm
      have := hleast (j * 8 + m) (by omega)
      simp only [BitMapFrameAllocator.frameFree] at this
      have hdiv : (j * 8 + m) / 8 = j := by omega
      have hmod : (j * 8 + m) % 8 = m := by omega
      rw [hdiv, hmod] at this
      simpa using this
    have hFNF : BitMapFrameAllocator.firstNonFull a.slice = some (k / 8) :=
      BitMapFrameAllocator.firstNonFull_of_least _ _ hilen hBne hprev
    have htones : BitMapFrameAllocator.trailing_ones (a.slice.getD (k / 8) 0) = k % 8 := by
      rw [hold]
      apply BitMapFrameAllocator.trailing_ones_least _ hBlt _ hr8 _ hBbit
      intro m hm
      have := hleast (k / 8 * 8 + m) (by omega)
      simp only [BitMapFrameAllocator.frameFree] at this
      have hdiv : (k / 8 * 8 + m) / 8 = k / 8 := by omega
      have hmod : (k / 8 * 8 + m) % 8 = m := by omega
      rw [hdiv, hmod] at this
      simpa using this
    have hidx : k / 8 * 8 + BitMapFrameAllocator.trailing_ones (a.slice.getD (k / 8) 0) = k := by
      rw [htones]; omega
    obtain ⟨a2, hmf, hf2, hother, hfa2, -, -⟩ :=
      BitMapFrameAllocator.mark_frame_some_spec a k true (by omega) hilen
    refine ⟨a2, ?_, by simpa using hf2, hother, hfa2⟩
    rw [BitMapFrameAllocator.allocate_frame_some_case a hne (k / 8) hFNF, hidx,
      if_neg (by omega), hmf]
    rfl
  · intro hall
    cases hFNF : BitMapFrameAllocator.firstNonFull a.slice with
    | none => exact BitMapFrameAllocator.allocate_frame_none_case a hne hFNF
    | some i =>
      obtain ⟨hilen, hBne, -⟩ := BitMapFrameAllocator.firstNonFull_eq_some _ _ hFNF
      have hold : a.slice.getD i 0 = a.slice.getD i 255 := by
        simp [List.getD_eq_getElem?_getD, List.getElem?_eq_getElem hilen]
      have hBmem : a.slice.getD i 255 ∈ a.slice := by
        rw [List.getD_eq_getElem?_getD, List.getElem?_eq_getElem hilen]
        exact List.getElem_mem hilen
      have hBlt : a.slice.getD i 255 < 256 := hbytes _ hBmem
      obtain ⟨ht8, htbit, -⟩ :=
        BitMapFrameAllocator.trailing_ones_spec _ hBlt hBne
      have hge : a.frames_amount ≤ i * 8 + BitMapFrameAllocator.trailing_ones (a.slice.getD i 0) := by
        by_contra hlt
        push_neg at hlt
        have hfree : a.frameFree (i * 8 + BitMapFrameAllocator.trailing_ones (a.slice.getD i 0)) = true := by
          simp only [BitMapFrameAllocator.frameFree]
          have hdiv : (i * 8 + BitMapFrameAllocator.trailing_ones (a.slice.getD i 0)) / 8 = i := by
            rw [hold]; omega
          have hmod : (i * 8 + BitMapFrameAllocator.trailing_ones (a.slice.getD i 0)) % 8 =
              BitMapFrameAllocator.trailing_ones (a.slice.getD i 0) := by
            rw [hold]; omega
          rw [hdiv, hmod, hold, htbit]
          rfl
        have := hall _ hlt
        rw [this] at hfree
        simp at hfree
      rw [BitMapFrameAllocator.allocate_frame_some_case a hne i hFNF, if_pos hge]

/-- Allocator for the C2 witness: 8 frames, one bitmap byte with value 3
(frames 0 and 1 allocated, frame 2 the lowest free frame). -/
def c2A : BitMapFrameAllocator :=
  { bitmap_frame := 0
    bitmap_size_in_bytes := 1
    bitmap_size_in_frames := 1
    frames_amount := 8
    memory_end := 100
    slice := [3] }

/-- Witness for C2 at the state c2A with lowest free frame 2. -/
theorem c2_witness :
    (0 < c2A.frames_amount) ∧
    (∃ a2, c2A.allocate_frame =
        some (some { number := 2, address := 2 * FRAME_SIZE }, a2) ∧
      a2.frameFree 2 = false ∧
      (∀ j, j ≠ 2 → a2.frameFree j = c2A.frameFree j) ∧
      a2.frames_amount = c2A.frames_amount) :=
  ⟨by decide,
    (c2_allocate_frame_lowest_free c2A (by decide) (by decide) (by decide) (by decide)).1
      2 (by decide) (by decide) (by decide)⟩

/-! ### Heap claims -/

lemma norm_size_eq (s : Nat) :
    (if s < LIST_HEAP_NODE_SIZE then LIST_HEAP_NODE_SIZE else s) = max s LIST_HEAP_NODE_SIZE := by
  unfold LIST_HEAP_NODE_SIZE
  rw [Nat.max_def]
  split <;> split <;> omega

/-- Claim C10 (confirmed): the hole-node size floor is 17 bytes (1 byte
bool plus two 8-byte usize, packed), both alloc and dealloc normalize
every request to max(size, 17) before doing anything else, and the
normalized request is always at least 17. -/
theorem c10_hole_size_floor :
    LIST_HEAP_NODE_SIZE = 17 ∧
    (∀ fuel w s, alloc fuel w s = alloc fuel w (max s LIST_HEAP_NODE_SIZE)) ∧
    (∀ fuel w p s, dealloc fuel w p s = dealloc fuel w p (max s LIST_HEAP_NODE_SIZE)) ∧
    (∀ s, LIST_HEAP_NODE_SIZE ≤ max s LIST_HEAP_NODE_SIZE) := by
  have hkey : ∀ s : Nat,
      (if s < LIST_HEAP_NODE_SIZE then LIST_HEAP_NODE_SIZE else s) =
      (if max s LIST_HEAP_NODE_SIZE < LIST_HEAP_NODE_SIZE then LIST_HEAP_NODE_SIZE
       else max s LIST_HEAP_NODE_SIZE) := by
    intro s
    rw [norm_size_eq, norm_size_eq, Nat.max_assoc, Nat.max_self]
  refine ⟨rfl, ?_, ?_, fun s => le_max_right _ _⟩
  · intro fuel w s
    unfold alloc
    rw [hkey]
  · intro fuel w p s
    unfold dealloc
    rw [hkey]

lemma SearchRes.isNoFit_eq {s : SearchRes} (h : s.isNoFit = true) : s = SearchRes.noFit := by
  cases s <;> simp [SearchRes.isNoFit] at h ⊢

lemma mapLoop_spec : ∀ (idxs : List Nat) (w : HeapWorld) (vsf : Nat),
    idxs.length ≤ w.frames.length →
    mapLoop vsf idxs w = KResult.ok
      { w with
        frames := w.frames.drop idxs.length
        calls := w.calls ++
          List.zipWith (fun i f => heapMapCall f (vsf + i)) idxs (w.frames.take idxs.length) } := by
  intro idxs
  induction idxs with
  | nil => intro w vsf _; simp [mapLoop]
  | cons i rest ih =>
    intro w vsf h
    cases hf : w.frames with
    | nil => rw [hf] at h; simp at h
    | cons f fr =>
      have hlen : rest.length ≤ fr.length := by
        rw [hf] at h; simpa using h
      simp only [mapLoop, hf]
      rw [ih _ vsf (by simpa using hlen)]
      simp [hf, List.append_assoc]

/-- Claim C5 (confirmed): when the hole search of alloc comes back with
no fit, then with old = max_currently_used and nw = old + max(size, H):
if nw reaches max_memory_amount the allocator panics without having
mapped any frame; otherwise it pops one physical frame and records one
p4_map call for every virtual frame index in
[ceil(old / 4096), ceil(nw / 4096)), each at page
virtual_start_frame + i with PRESENT|WRITABLE, allow_overwrite = false,
invalidate = true and Recursive access, sets max_currently_used to nw,
and returns old + HEAP_OFFSET, where HEAP_OFFSET =
KERNEL_OFFSET - MAX_HEAP. -/
theorem c5_alloc_extension_path (fuel : Nat) (w : HeapWorld) (layoutSize size old nw : Nat)
    (hsize : size = max layoutSize LIST_HEAP_NODE_SIZE)
    (hold : old = w.max_currently_used)
    (hnew : nw = old + size)
    (hnofit : (allocSearch size fuel none w.sentinel_addr w).isNoFit = true) :
    (w.max_memory_amount ≤ nw →
      alloc fuel w layoutSize =
        AllocResult.panicked { w with max_currently_used := nw }) ∧
    (nw < w.max_memory_amount →
      ceil_div_usize nw FRAME_SIZE - ceil_div_usize old FRAME_SIZE ≤ w.frames.length →
      alloc fuel w layoutSize = AllocResult.ok (old + HEAP_OFFSET)
        { w with
          max_currently_used := nw
          frames := w.frames.drop
            (ceil_div_usize nw FRAME_SIZE - ceil_div_usize old FRAME_SIZE)
          calls := w.calls ++
            List.zipWith (fun i f => heapMapCall f (w.virtual_start_frame + i))
              (List.range' (ceil_div_usize old FRAME_SIZE)
                (ceil_div_usize nw FRAME_SIZE - ceil_div_usize old FRAME_SIZE))
              (w.frames.take
                (ceil_div_usize nw FRAME_SIZE - ceil_div_usize old FRAME_SIZE)) }) ∧
    (∀ f p, heapMapCall f p =
      { frame := f
        page := PageInfo.from_number p
        flags := EntryFlags.PRESENT ||| EntryFlags.WRITABLE
        allow_overwrite := false
        invalidate := true
        access := TableAccess.Recursive }) ∧
    HEAP_OFFSET = KERNEL_OFFSET - MAX_HEAP := by
  have hnofit2 := SearchRes.isNoFit_eq hnofit
  have hif : (if layoutSize < LIST_HEAP_NODE_SIZE then LIST_HEAP_NODE_SIZE else layoutSize) =
      size := by rw [norm_size_eq, hsize]
  have halloc : alloc fuel w layoutSize = allocExtend w size := by
    unfold alloc
    rw [hif]
    dsimp only []
    rw [hnofit2]
  subst hold hnew
  refine ⟨?_, ?_, fun f p => rfl, rfl⟩
  · intro hoom
    rw [halloc]
    unfold allocExtend
    dsimp only []
    rw [if_pos (by exact hoom)]
  · intro hroom hframes
    rw [halloc]
    unfold allocExtend
    dsimp only []
    rw [if_neg (by omega)]
    by_cases hpc : ceil_div_usize w.max_currently_used FRAME_SIZE <
        ceil_div_usize (w.max_currently_used + size) FRAME_SIZE
    · rw [if_pos hpc]
      rw [mapLoop_spec _ _ _ (by simpa using hframes)]
      simp
    · rw [if_neg hpc]
      have hz : ceil_div_usize (w.max_currently_used + size) FRAME_SIZE -
          ceil_div_usize w.max_currently_used FRAME_SIZE = 0 := by omega
      simp [hz]

/-- Heap world of the C5 witness: empty hole list, fresh heap, one frame
available. -/
def c5W : HeapWorld :=
  { mem := fun a =>
      if a = KERNEL_OFFSET then some { is_last := true, next_node := 0, hole_size := 0 }
      else none
    sentinel_addr := KERNEL_OFFSET
    virtual_start_frame := HEAP_OFFSET / FRAME_SIZE
    max_memory_amount := MAX_HEAP
    max_currently_used := 0
    frames := [FrameInfo.from_number 7]
    calls := [] }

/-- Witness for C5: allocating 256 bytes on the fresh heap c5W extends
the heap by one page and returns HEAP_OFFSET. -/
theorem c5_witness :
    alloc 1 c5W 256 = AllocResult.ok (0 + HEAP_OFFSET)
      { c5W with
        max_currently_used := 256
        frames := c5W.frames.drop (ceil_div_usize 256 FRAME_SIZE - ceil_div_usize 0 FRAME_SIZE)
        calls := c5W.calls ++
          List.zipWith (fun i f => heapMapCall f (c5W.virtual_start_frame + i))
            (List.range' (ceil_div_usize 0 FRAME_SIZE)
              (ceil_div_usize 256 FRAME_SIZE - ceil_div_usize 0 FRAME_SIZE))
            (c5W.frames.take (ceil_div_usize 256 FRAME_SIZE - ceil_div_usize 0 FRAME_SIZE)) } :=
  (c5_alloc_extension_path 1 c5W 256 256 0 256 (by decide) (by decide) (by decide)
    (by decide)).2.1 (by decide) (by decide)

/-- A descent step of p4_map whose entry is already present (and, in
Recursive mode, not huge) creates nothing: it returns the next table
address and leaves the machine untouched. -/
lemma descentStep_of_descend1 {A : Type} (allocate : A → Option FrameInfo × A)
    (access : TableAccess) (m : PMachine A) (ta idx next : Nat)
    (h : descend1 access m.mem ta idx = some next) :
    descentStep access allocate ta idx m = KResult.ok (next, m) := by
  unfold descend1 at h
  cases hm : m.mem ta with
  | none => rw [hm] at h; simp at h
  | some t =>
    rw [hm] at h
    dsimp only [] at h
    by_cases hu : Entry.is_unused (t idx) = true
    · rw [if_pos hu] at h; simp at h
    · rw [if_neg hu] at h
      have hcg : create_or_get_table_entry allocate ta idx access m = KResult.ok m := by
        unfold create_or_get_table_entry
        rw [hm]
        dsimp only []
        rw [if_neg hu]
      cases access with
      | Identity =>
        dsimp only [] at h
        by_cases hp : Entry.present (t idx) = true
        · rw [if_pos hp] at h
          simp only [Option.some.injEq] at h
          unfold descentStep stepIdentity
          rw [hcg]
          dsimp only []
          rw [hm]
          dsimp only []
          rw [if_pos hp, h]
        · rw [if_neg hp] at h; simp at h
      | Recursive =>
        dsimp only [] at h
        unfold descentStep stepRecursive
        rw [hcg]
        dsimp only []
        rw [hm]
        dsimp only []
        rw [h]

/-- Claim C6 (confirmed): when the whole descent path of a page already
exists and its p1 entry is used, p4_map with allow_overwrite = false
panics and leaves the machine (every table reached on the way included)
exactly unchanged, in both Identity and Recursive access modes. -/
theorem c6_overwrite_guard {A : Type} (allocate : A → Option FrameInfo × A)
    (access : TableAccess) (m : PMachine A) (p4_address : Nat) (page : PageInfo)
    (frame : FrameInfo) (flags : Nat) (invalidate_addres : Bool) (t1 : Nat) (t : Nat → Nat)
    (hdesc : descendPath access m.mem p4_address page = some t1)
    (hmem : m.mem t1 = some t)
    (hused : Entry.is_unused (t page.p1_index) = false) :
    p4_map allocate p4_address frame page flags false invalidate_addres access m =
      KResult.panicked m := by
  unfold descendPath at hdesc
  obtain ⟨t3, h3, hrest⟩ := Option.bind_eq_some.1 hdesc
  obtain ⟨t2, h2, h1⟩ := Option.bind_eq_some.1 hrest
  unfold p4_map
  rw [descentStep_of_descend1 allocate access m _ _ _ h3]
  dsimp only []
  rw [descentStep_of_descend1 allocate access m _ _ _ h2]
  dsimp only []
  rw [descentStep_of_descend1 allocate access m _ _ _ h1]
  dsimp only []
  rw [hmem]
  dsimp only []
  rw [hused]
  simp

/-- The p1 table of the C6 witness machine. -/
def c6T1 : Nat → Nat := fun i => if i = 0 then 0x5003 else 0

/-- Identity-mapped four-level machine for the C6 witness: tables at
0x1000 (p4), 0x2000, 0x3000, 0x4000, each entry 0 pointing down with
PRESENT|WRITABLE, and the p1 entry 0 already used (0x5003). -/
def c6M : PMachine Unit :=
  { mem := fun x =>
      if x = 0x1000 then some (fun i => if i = 0 then 0x2003 else 0)
      else if x = 0x2000 then some (fun i => if i = 0 then 0x3003 else 0)
      else if x = 0x3000 then some (fun i => if i = 0 then 0x4003 else 0)
      else if x = 0x4000 then some c6T1
      else none
    alloc := () }

/-- A frame allocator stub for the C6 witness (never consulted on the
panic path). -/
def c6allocate : Unit → Option FrameInfo × Unit := fun _ => (none, ())

/-- Witness for C6: mapping page 0 (whose p1 entry is used) with
allow_overwrite = false panics and returns the unchanged machine. -/
theorem c6_witness :
    p4_map c6allocate 0x1000 (FrameInfo.from_number 9) (PageInfo.from_number 0) 2
      false false TableAccess.Identity c6M = KResult.panicked c6M :=
  c6_overwrite_guard c6allocate TableAccess.Identity c6M 0x1000 (PageInfo.from_number 0)
    (FrameInfo.from_number 9) 2 false 0x4000 c6T1 (by decide) rfl (by decide)

/-- An alloc whose hole search finds nothing, with room and frames to
grow, succeeds through the extension path and returns
max_currently_used + HEAP_OFFSET, leaving the hole list memory alone. -/
lemma alloc_noFit_result (fuel : Nat) (w : HeapWorld) (layoutSize size : Nat)
    (hsize : (if layoutSize < LIST_HEAP_NODE_SIZE then LIST_HEAP_NODE_SIZE else layoutSize) = size)
    (hnofit : allocSearch size fuel none w.sentinel_addr w = SearchRes.noFit)
    (hroom : w.max_currently_used + size < w.max_memory_amount)
    (hframes : ceil_div_usize (w.max_currently_used + size) FRAME_SIZE -
        ceil_div_usize w.max_currently_used FRAME_SIZE ≤ w.frames.length) :
    ∃ w2, alloc fuel w layoutSize =
        AllocResult.ok (w.max_currently_used + HEAP_OFFSET) w2 ∧
      w2.mem = w.mem ∧ w2.sentinel_addr = w.sentinel_addr ∧
      w2.virtual_start_frame = w.virtual_start_frame ∧
      w2.max_memory_amount = w.max_memory_amount ∧
      w2.max_currently_used = w.max_currently_used + size ∧
      w2.frames.length = w.frames.length -
        (ceil_div_usize (w.max_currently_used + size) FRAME_SIZE -
          ceil_div_usize w.max_currently_used FRAME_SIZE) := by
  have halloc : alloc fuel w layoutSize = allocExtend w size := by
    unfold alloc
    rw [hsize]
    dsimp only []
    rw [hnofit]
  rw [halloc]
  unfold allocExtend
  dsimp only []
  rw [if_neg (by omega)]
  by_cases hpc : ceil_div_usize w.max_currently_used FRAME_SIZE <
      ceil_div_usize (w.max_currently_used + size) FRAME_SIZE
  · rw [if_pos hpc]
    rw [mapLoop_spec _ _ _ (by simpa using hframes)]
    dsimp only []
    refine ⟨_, rfl, rfl, rfl, rfl, rfl, rfl, ?_⟩
    simp
  · rw [if_neg hpc]
    dsimp only []
    refine ⟨_, rfl, rfl, rfl, rfl, rfl, rfl, ?_⟩
    dsimp only []
    omega

/-- Claim C3 (amended): from any state whose hole list is empty (the
sentinel alone, is_last with hole_size 0), with room for 512 more bytes,
enough frames, and the heap below the sentinel, the sequence
p1 = alloc(256); dealloc(p1, 256); p2 = alloc(256) returns
p2 = p1 + 256, not p1: the freed 256-byte hole never satisfies the fit
test hole_size >= 256 + 17, so the second alloc extends the heap
again. -/
theorem c3_alloc_free_alloc_amended (fuel : Nat) (w : HeapWorld) (n0 : Nat)
    (hsent : w.mem w.sentinel_addr = some { is_last := true, next_node := n0, hole_size := 0 })
    (haddr : w.sentinel_addr ≠ w.max_currently_used + HEAP_OFFSET)
    (hroom : w.max_currently_used + 512 < w.max_memory_amount)
    (hframes : ceil_div_usize (w.max_currently_used + 512) FRAME_SIZE -
        ceil_div_usize w.max_currently_used FRAME_SIZE ≤ w.frames.length)
    (hfuel : 2 ≤ fuel) :
    c3run fuel w = some (w.max_currently_used + HEAP_OFFSET,
      w.max_currently_used + 256 + HEAP_OFFSET) ∧
    w.max_currently_used + 256 + HEAP_OFFSET ≠ w.max_currently_used + HEAP_OFFSET := by
  obtain ⟨k, rfl⟩ : ∃ k, fuel = k + 2 := ⟨fuel - 2, by omega⟩
  refine ⟨?_, by omega⟩
  have hceil : ∀ x y : Nat, x ≤ y →
      ceil_div_usize x FRAME_SIZE ≤ ceil_div_usize y FRAME_SIZE := by
    intro x y hxy
    simp only [ceil_div_usize, FRAME_SIZE]
    omega
  have hs1 : allocSearch 256 (k + 2) none w.sentinel_addr w = SearchRes.noFit := by
    simp only [allocSearch, hsent]
    norm_num [LIST_HEAP_NODE_SIZE]
  obtain ⟨w2, halloc1, hw2mem, hw2sent, hw2vsf, hw2max, hw2mcu, hw2flen⟩ :=
    alloc_noFit_result (k + 2) w 256 256 (by norm_num [LIST_HEAP_NODE_SIZE]) hs1
      (by omega)
      (by
        have h1 := hceil (w.max_currently_used + 256) (w.max_currently_used + 512) (by omega)
        have h2 := hceil w.max_currently_used (w.max_currently_used + 256) (by omega)
        omega)
  have hmemS2 : w2.mem w2.sentinel_addr =
      some { is_last := true, next_node := n0, hole_size := 0 } := by
    rw [hw2mem, hw2sent, hsent]
  have hdeal : dealloc (k + 2) w2 (w.max_currently_used + HEAP_OFFSET) 256 = some
      { w2 with
        mem := memSet (memSet w2.mem w2.sentinel_addr { is_last := false, next_node := w.max_currently_used + HEAP_OFFSET, hole_size := 0 }) (w.max_currently_used + HEAP_OFFSET) { hole_size := 256, is_last := true, next_node := 0 } } := by
    unfold dealloc
    norm_num [LIST_HEAP_NODE_SIZE]
    simp only [deallocLoop, hmemS2]
    norm_num
  have hdealx : ∃ w3, dealloc (k + 2) w2 (w.max_currently_used + HEAP_OFFSET) 256 = some w3 ∧
      w3.sentinel_addr = w2.sentinel_addr ∧
      w3.virtual_start_frame = w2.virtual_start_frame ∧
      w3.max_memory_amount = w2.max_memory_amount ∧
      w3.max_currently_used = w2.max_currently_used ∧
      w3.frames = w2.frames ∧
      w3.mem w3.sentinel_addr = some { is_last := false, next_node := w.max_currently_used + HEAP_OFFSET, hole_size := 0 } ∧
      w3.mem (w.max_currently_used + HEAP_OFFSET) = some { is_last := true, next_node := 0, hole_size := 256 } := by
    refine ⟨{ w2 with mem := memSet (memSet w2.mem w2.sentinel_addr { is_last := false, next_node := w.max_currently_used + HEAP_OFFSET, hole_size := 0 }) (w.max_currently_used + HEAP_OFFSET) { hole_size := 256, is_last := true, next_node := 0 } }, ?_, rfl, rfl, rfl, rfl, rfl, ?_, ?_⟩
    · unfold dealloc
      norm_num [LIST_HEAP_NODE_SIZE]
      simp only [deallocLoop, hmemS2]
      norm_num
    · dsimp only []
      unfold memSet
      rw [if_neg (by rw [hw2sent]; exact haddr), if_pos rfl]
    · dsimp only []
      unfold memSet
      rw [if_pos rfl]
  obtain ⟨w3, hdeal, hw3sent, hw3vsf, hw3max, hw3mcu, hw3frames, hw3memS, hw3memp1⟩ := hdealx
  have hs2 : allocSearch 256 (k + 2) none w3.sentinel_addr w3 = SearchRes.noFit := by
    simp only [allocSearch, hw3memS]
    norm_num [LIST_HEAP_NODE_SIZE]
    simp only [allocSearch, hw3memp1]
    norm_num
  obtain ⟨w4, halloc2, hw4mem, hw4sent, hw4vsf, hw4max, hw4mcu, hw4flen⟩ :=
    alloc_noFit_result (k + 2) w3 256 256 (by norm_num [LIST_HEAP_NODE_SIZE]) hs2
      (by rw [hw3mcu, hw3max, hw2mcu, hw2max]; omega)
      (by
        rw [hw3mcu, hw3frames, hw2mcu, hw2flen]
        have h3 : w.max_currently_used + 256 + 256 = w.max_currently_used + 512 := by omega
        rw [h3]
        have h1 := hceil w.max_currently_used (w.max_currently_used + 256) (by omega)
        have h2 := hceil (w.max_currently_used + 256) (w.max_currently_used + 512) (by omega)
        omega)
  unfold c3run
  rw [halloc1]
  dsimp only []
  rw [hdeal]
  dsimp only []
  rw [halloc2]
  dsimp only []
  rw [hw3mcu, hw2mcu]

/-- Witness for the amended C3 on the fresh heap world c3World. -/
theorem c3_witness :
    c3run 2 c3World = some (c3World.max_currently_used + HEAP_OFFSET,
      c3World.max_currently_used + 256 + HEAP_OFFSET) ∧
    c3World.max_currently_used + 256 + HEAP_OFFSET ≠
      c3World.max_currently_used + HEAP_OFFSET :=
  c3_alloc_free_alloc_amended 2 c3World 0 (by decide) (by decide) (by decide)
    (by decide) (by decide)
